import Mathlib

/-!
Verification of the core of the `robloxlog` process-monitoring backend
(`src/utils/process_monitor.py`), as a shallow embedding in Lean.

Conventions of the embedding:
* Python `set` values of `(pid, name)` pairs become `Finset ProcId`.
* Python `dict` values (insertion-ordered, in-place update on existing keys)
  become association lists `List (key × value)` with the helpers `dictGet`,
  `dictSet`, `dictDel` mirroring lookup, assignment and `del`.
* Timestamps and second-counts (`datetime` values and `total_seconds()`
  results) become integers `ℤ` counting seconds; the verified claims only
  compare such quantities by order, which is insensitive to the granularity.
  Every place the Python reads the wall clock (`datetime.now`) the embedding
  takes the current time as an explicit argument `now`.
* Coroutines whose effects are on the service's own fields become state
  passing; a function that can raise an exception that its callers do not
  catch returns an `Option`, with `none` for the raising run.
-/

namespace RobloxLog

/-- Identity of an observed process: the `(pid, name)` pair that the monitor
loop stores in its `known_processes` set. -/
structure ProcId where
  pid : Nat
  name : String
deriving DecidableEq, Repr

/-- The fixed list `ROBLOX_PROCESSES` from the top of `process_monitor.py`. -/
def ROBLOX_PROCESSES : List String :=
  ["RobloxPlayerBeta.exe", "RobloxStudioBeta.exe", "RobloxPlayerLauncher.exe", "Roblox"]

/-- Decides whether `n` is an initial segment of `h` (character lists). -/
def charsMatchAt : List Char → List Char → Bool
  | [], _ => true
  | _ :: _, [] => false
  | a :: n, b :: h => a == b && charsMatchAt n h

/-- Decides whether `n` occurs as a contiguous run somewhere in `h`
(character lists); this is Python's `n in h` on strings. -/
def charsContain (n : List Char) : List Char → Bool
  | [] => charsMatchAt n []
  | b :: h => charsMatchAt n (b :: h) || charsContain n h

/-- Python's `str.lower()`, characterwise (the names involved are ASCII). -/
def pyLower (s : String) : String :=
  ⟨s.data.map Char.toLower⟩

/-- Python's substring test `needle in hay` on strings. -/
def strContainsSub (hay needle : String) : Bool :=
  charsContain needle.data hay.data

/-- `ProcessMonitorService._is_roblox_process`: a name matches when it is
listed in `ROBLOX_PROCESSES` or its lowercasing contains `"roblox"`. -/
def is_roblox_process (process_name : String) : Bool :=
  ROBLOX_PROCESSES.contains process_name || strContainsSub (pyLower process_name) "roblox"

/-- Per-process events emitted by one iteration of the monitor loop via
`_handle_process_started` / `_handle_process_terminated`. -/
inductive PEvent where
  | started : ProcId → PEvent
  | stopped : ProcId → PEvent
deriving DecidableEq, Repr

/-- The snapshot that one iteration of `_monitor_loop` builds from the OS
process listing: the set of `(pid, name)` pairs whose name matches
`_is_roblox_process`. -/
def snapshotFrom (procs : List ProcId) : Finset ProcId :=
  (procs.filter (fun p => is_roblox_process p.name)).toFinset

/-- Runtime configuration of the monitor; only `auto_close_roblox` is read by
the code under verification (`config.get("auto_close_roblox", False)`). -/
structure Config where
  auto_close_roblox : Bool
deriving DecidableEq, Repr

/-- State of `ProcessMonitorService`: the `is_monitoring` flag, whether a live
monitor task exists, the `known_processes` set and the loaded config. -/
structure ProcessMonitorService where
  is_monitoring : Bool
  monitor_task : Bool
  known_processes : Finset ProcId
  config : Config
deriving DecidableEq

/-- `ProcessMonitorService.__init__`: not monitoring, no task, empty known
set, empty config (an empty config dict reads `auto_close_roblox` as false). -/
def ProcessMonitorService.init : ProcessMonitorService :=
  { is_monitoring := false, monitor_task := false, known_processes := ∅,
    config := ⟨false⟩ }

/-- Loop body of `ProcessMonitorService._handle_existing_processes`: walk the
process listing; each matching process is added to `known`; if
`auto_close_roblox` is set, all matches are killed, `known` is cleared and the
walk stops (`break`). -/
def handle_existing_processes_go (cfg : Config) :
    List ProcId → Finset ProcId → Finset ProcId
  | [], known => known
  | p :: rest, known =>
      if is_roblox_process p.name then
        let known' := insert p known
        if cfg.auto_close_roblox then ∅
        else handle_existing_processes_go cfg rest known'
      else handle_existing_processes_go cfg rest known

/-- `ProcessMonitorService.start`: when already monitoring the whole body is
skipped; otherwise the config is loaded (passed here as `cfg`), the flag is
set, the loop task is launched and `_handle_existing_processes` seeds
`known_processes` from the startup process listing `procs`. -/
def ProcessMonitorService.start (st : ProcessMonitorService) (cfg : Config)
    (procs : List ProcId) : ProcessMonitorService :=
  if st.is_monitoring then st
  else
    let st1 := { st with config := cfg, is_monitoring := true, monitor_task := true }
    { st1 with
      known_processes := handle_existing_processes_go cfg procs st1.known_processes }

/-- `ProcessMonitorService.stop`: when not monitoring the whole body is
skipped; otherwise the flag is cleared and the loop task is cancelled and
awaited (no live task remains). -/
def ProcessMonitorService.stop (st : ProcessMonitorService) : ProcessMonitorService :=
  if st.is_monitoring then { st with is_monitoring := false, monitor_task := false }
  else st

/-- One iteration of `ProcessMonitorService._monitor_loop`: build the current
snapshot from the OS listing `procs`, emit one `started` event per member of
`current − known` and one `stopped` event per member of `known − current`
(each difference is iterated once, one handler call per member), then replace
`known_processes` with the current snapshot. -/
def monitor_loop_iter (st : ProcessMonitorService) (procs : List ProcId) :
    Multiset PEvent × ProcessMonitorService :=
  let current := snapshotFrom procs
  ((current \ st.known_processes).val.map PEvent.started
      + (st.known_processes \ current).val.map PEvent.stopped,
    { st with known_processes := current })

/-- Message payloads exchanged with the desktop client. `payload` stands for
an opaque data dictionary; `envelope ty data ts` is the queued-event wrapper
`{"type": ty, "data": data, "timestamp": ts}` that
`_send_via_available_channel` builds (wrapping can nest: the backlog flush
re-sends whole envelopes as data). -/
inductive Msg where
  | payload : String → Msg
  | envelope : String → Msg → Nat → Msg
deriving DecidableEq, Repr

/-- State of the `WebSocketServer` transport as seen by
`DesktopClientService`: how many clients are connected, whether
`send_to_desktop` raises, and the trace of messages pushed successfully
(each a `(message_type, data)` pair). -/
structure WSServer where
  connected_clients : Nat
  send_raises : Bool
  sent : List (String × Msg)
deriving DecidableEq, Repr

/-- `WebSocketServer.has_connected_clients`. -/
def WSServer.has_connected_clients (w : WSServer) : Bool :=
  decide (0 < w.connected_clients)

/-- State of `DesktopClientService`: connection flag, the three queues and
the optional WebSocket transport. -/
structure DesktopClientService where
  desktop_client_connected : Bool
  session_data_queue : List Msg
  notification_queue : List Msg
  event_queue : List Msg
  websocket_server : Option WSServer
deriving DecidableEq, Repr

/-- `DesktopClientService._send_via_available_channel`: if a WebSocket server
exists and reports connected clients, try to push; success returns `True`
without queueing; a raising push, an absent server, or no connected clients
all fall through to appending the `{type, data, timestamp}` envelope to
`event_queue` and returning `False`. -/
def send_via_available_channel (st : DesktopClientService) (message_type : String)
    (data : Msg) (now : Nat) : Bool × DesktopClientService :=
  let queued : DesktopClientService :=
    { st with event_queue := st.event_queue ++ [Msg.envelope message_type data now] }
  match st.websocket_server with
  | some ws =>
      if ws.has_connected_clients then
        if ws.send_raises then (false, queued)
        else
          let ws' : WSServer := { ws with sent := ws.sent ++ [(message_type, data)] }
          (true, { st with websocket_server := some ws' })
      else (false, queued)
  | none => (false, queued)

/-- Condition under which `_send_via_available_channel` delivers directly: a
WebSocket server is present, has connected clients, and its push does not
raise. -/
def live_push_ok (st : DesktopClientService) : Bool :=
  match st.websocket_server with
  | some ws => ws.has_connected_clients && !ws.send_raises
  | none => false

/-- `DesktopClientService.get_pending_events`: copy the event queue, clear
it, return the copy. -/
def get_pending_events (st : DesktopClientService) : List Msg × DesktopClientService :=
  let events := st.event_queue
  (events, { st with event_queue := [] })

/-- One of the first two loops of `_process_queued_data`: send every message
of the list (a queue that the sends themselves never mutate) through
`_send_via_available_channel` under the fixed message type `ty`. -/
def send_each (st : DesktopClientService) (ty : String) (msgs : List Msg)
    (now : Nat) : DesktopClientService :=
  msgs.foldl (fun s m => (send_via_available_channel s ty m now).2) st

/-- Third loop of `_process_queued_data`: Python iterates `self.event_queue`
by position while failing sends append to that same list, so the loop is
modelled on the live list with an index and fuel; `none` means the loop had
not finished within `fuel` iterations (with a failing transport the Python
loop grows the list at every step and never finishes). -/
def process_event_queue_loop : Nat → DesktopClientService → Nat → Nat →
    Option DesktopClientService
  | 0, _, _, _ => none
  | fuel + 1, st, i, now =>
      if h : i < st.event_queue.length then
        let ev := st.event_queue.get ⟨i, h⟩
        process_event_queue_loop fuel (send_via_available_channel st "event" ev now).2
          (i + 1) now
      else some st

/-- `DesktopClientService._process_queued_data`: re-send the session-data
queue, the notification queue and the event queue through
`_send_via_available_channel`, then clear all three queues. -/
def process_queued_data (st : DesktopClientService) (now fuel : Nat) :
    Option DesktopClientService :=
  let st1 := send_each st "session_data" st.session_data_queue now
  let st2 := send_each st1 "notification" st1.notification_queue now
  match process_event_queue_loop fuel st2 0 now with
  | none => none
  | some st3 =>
      some { st3 with
        session_data_queue := [], notification_queue := [], event_queue := [] }

/-- `DesktopClientService.set_client_connected`: record the flag; on
`connected = True` the service schedules `_process_queued_data`, modelled
here as running that flush to completion before any further operation. -/
def set_client_connected (st : DesktopClientService) (connected : Bool)
    (now fuel : Nat) : Option DesktopClientService :=
  let st1 := { st with desktop_client_connected := connected }
  if connected then process_queued_data st1 now fuel else some st1

/-- Lookup in a Python dict modelled as an association list. -/
def dictGet {α : Type} : List (String × α) → String → Option α
  | [], _ => none
  | (k', v) :: t, k => if k' = k then some v else dictGet t k

/-- Assignment `d[k] = v` on a Python dict: update in place when the key is
present (keeping its position), else append at the end. -/
def dictSet {α : Type} : List (String × α) → String → α → List (String × α)
  | [], k, v => [(k, v)]
  | (k', v') :: t, k, v =>
      if k' = k then (k, v) :: t else (k', v') :: dictSet t k v

/-- Deletion `del d[k]` on a Python dict (keys are unique, so removing the
first occurrence removes the entry). -/
def dictDel {α : Type} : List (String × α) → String → List (String × α)
  | [], _ => []
  | (k', v') :: t, k => if k' = k then t else (k', v') :: dictDel t k

/-- The `SessionRecord` class. Timestamps are rationals (seconds);
`session_id` is `None` until `start()` fills it. -/
structure SessionRecord where
  session_id : Option String
  child_profile : String
  time_start : Option ℤ
  time_end : Option ℤ
  duration_seconds : ℤ
  is_active : Bool
deriving DecidableEq, Repr

/-- `SessionRecord(child_profile)` immediately followed by
`SessionRecord.start()` at clock time `now`: `time_start = now`,
`session_id = f"{profile}_{int(start*1000)}"` (exact at integral seconds),
`is_active = True`. -/
def SessionRecord.startNew (child_profile : String) (now : ℤ) : SessionRecord :=
  { session_id := some (child_profile ++ "_" ++ toString (now * 1000))
    child_profile := child_profile
    time_start := some now
    time_end := none
    duration_seconds := 0
    is_active := true }

/-- `SessionRecord.end` at clock time `now`: on an active record set
`time_end`, recompute `duration_seconds` from `time_start` when that was set,
and clear `is_active`; on an inactive record do nothing. -/
def SessionRecord.endAt (s : SessionRecord) (now : ℤ) : SessionRecord :=
  if s.is_active then
    { s with
      time_end := some now
      duration_seconds :=
        match s.time_start with
        | some t0 => now - t0
        | none => s.duration_seconds
      is_active := false }
  else s

/-- State of `SessionManager`: the per-profile map of active sessions, the
append-only history, and the per-profile time limits in minutes. -/
structure SessionManager where
  active_sessions : List (String × SessionRecord)
  session_history : List SessionRecord
  time_limits : List (String × Int)
deriving DecidableEq, Repr

/-- `SessionManager.end_session` at clock time `now`: when the profile has an
active session, end it, append it to the history, delete it from the active
map and return it; otherwise return `None` and change nothing. -/
def end_session (m : SessionManager) (child_profile : String) (now : ℤ) :
    Option SessionRecord × SessionManager :=
  match dictGet m.active_sessions child_profile with
  | some session =>
      let ended := session.endAt now
      (some ended,
        { m with
          active_sessions := dictDel m.active_sessions child_profile
          session_history := m.session_history ++ [ended] })
  | none => (none, m)

/-- `SessionManager.start_session` at clock time `now`: when the profile
already has an active session, run `end_session` on it first; then create and
start a fresh record and store it in the active map. -/
def start_session (m : SessionManager) (child_profile : String) (now : ℤ) :
    SessionRecord × SessionManager :=
  let m1 :=
    if (dictGet m.active_sessions child_profile).isSome then
      (end_session m child_profile now).2
    else m
  let session := SessionRecord.startNew child_profile now
  (session, { m1 with active_sessions := dictSet m1.active_sessions child_profile session })

/-- The session view that `SessionManager.get_live_session` returns: the
record's `to_dict()` fields plus the extra `current_duration_seconds` key. -/
structure LiveSessionView where
  session : SessionRecord
  current_duration_seconds : ℤ
deriving DecidableEq, Repr

/-- `SessionManager.get_live_session` at clock time `now`: for a profile with
an active session return its data with `current_duration_seconds` recomputed
as `now − time_start`; for any other profile return `None`. (An active record
with `time_start = None` would make the Python raise; no record produced by
`start_session` has that shape, and the embedding returns `none` there.) -/
def get_live_session (m : SessionManager) (child_profile : String) (now : ℤ) :
    Option LiveSessionView :=
  match dictGet m.active_sessions child_profile with
  | some s =>
      match s.time_start with
      | some t0 => some ⟨s, now - t0⟩
      | none => none
  | none => none

/-- Loop of `SessionManager.check_time_limits`: walk the active-session map
in order; for each profile that has a configured limit, flag it when
`now − time_start` strictly exceeds `limit_minutes * 60`. An active record
with `time_start = None` would make the Python raise `TypeError`; the
embedding returns `none` for that run (no record produced by `start_session`
has that shape). -/
def check_time_limits_go (limits : List (String × Int)) (now : ℤ) :
    List (String × SessionRecord) → List String → Option (List String)
  | [], acc => some acc
  | (child_profile, session) :: rest, acc =>
      match dictGet limits child_profile with
      | some limit_minutes =>
          match session.time_start with
          | some t0 =>
              if now - t0 > (limit_minutes : ℤ) * 60 then
                check_time_limits_go limits now rest (acc ++ [child_profile])
              else check_time_limits_go limits now rest acc
          | none => none
      | none => check_time_limits_go limits now rest acc

/-- `SessionManager.check_time_limits` at clock time `now`. -/
def check_time_limits (m : SessionManager) (now : ℤ) : Option (List String) :=
  check_time_limits_go m.time_limits now m.active_sessions []

/-- Trace of messages successfully pushed over the live transport (empty when
no transport is attached). -/
def ws_sent (st : DesktopClientService) : List (String × Msg) :=
  match st.websocket_server with
  | some ws => ws.sent
  | none => []

/-- The service with its transport replaced. -/
def with_ws (st : DesktopClientService) (w : WSServer) : DesktopClientService :=
  { st with websocket_server := some w }

/-- The transport with more messages appended to its push trace. -/
def push_sent (w : WSServer) (l : List (String × Msg)) : WSServer :=
  { w with sent := w.sent ++ l }

/-- The service with all three queues cleared. -/
def clear_queues (st : DesktopClientService) : DesktopClientService :=
  { st with session_data_queue := [], notification_queue := [], event_queue := [] }

/-- Well-formedness of a Python-dict model: keys are pairwise distinct. -/
def keysNodup {α : Type} (l : List (String × α)) : Prop :=
  (l.map Prod.fst).Nodup

instance {α : Type} (l : List (String × α)) : Decidable (keysNodup l) := by
  unfold keysNodup; infer_instance

/-- Whether one active-session entry is flagged by the `check_time_limits`
walk: its profile has a configured limit and its elapsed time strictly
exceeds that limit in seconds. -/
def flagOf (limits : List (String × Int)) (now : ℤ)
    (e : String × SessionRecord) : Option String :=
  match dictGet limits e.1, e.2.time_start with
  | some lim, some t0 => if now - t0 > lim * 60 then some e.1 else none
  | _, _ => none

/-- Profiles that the `check_time_limits` walk flags, in walk order. -/
def flaggedProfiles (limits : List (String × Int)) (now : ℤ)
    (entries : List (String × SessionRecord)) : List String :=
  entries.filterMap (flagOf limits now)

/-- C3: the pull endpoint `get_pending_events` returns all queued envelopes
in the FIFO order in which `_send_via_available_channel` appended them,
atomically empties the queue, and an immediate second call returns the empty
list (the function is total, so no call can raise). -/
theorem c3_get_pending_events_drains (st : DesktopClientService) :
    (get_pending_events st).1 = st.event_queue ∧
    (get_pending_events st).2.event_queue = [] ∧
    (get_pending_events (get_pending_events st).2).1 = [] := by
  unfold get_pending_events
  exact ⟨rfl, rfl, rfl⟩

/-- C2: `_send_via_available_channel` reports delivery exactly when a live
transport with at least one connected consumer pushes without raising; on
delivery the message goes out on the transport and the queue is untouched; in
every failure case (no server, no connected consumer, raising push) the
envelope is appended to the delivery queue after the existing entries —
the event is never dropped. -/
theorem c2_send_via_available_channel_delivery (st : DesktopClientService)
    (ty : String) (data : Msg) (now : Nat) :
    (send_via_available_channel st ty data now).1 = live_push_ok st ∧
    (send_via_available_channel st ty data now).2.event_queue =
      (if live_push_ok st then st.event_queue
        else st.event_queue ++ [Msg.envelope ty data now]) ∧
    ws_sent (send_via_available_channel st ty data now).2 =
      (if live_push_ok st then ws_sent st ++ [(ty, data)] else ws_sent st) := by
  unfold send_via_available_channel live_push_ok ws_sent
  cases h : st.websocket_server with
  | none => simp
  | some ws =>
      by_cases hc : ws.has_connected_clients <;> by_cases hr : ws.send_raises <;>
        simp [hc, hr]

/-- C7: ending a session for a profile with no active session returns the
not-found value `none` and leaves the whole manager state — active map,
history and limits — unchanged (the function is total, so it cannot raise). -/
theorem c7_end_session_no_active (m : SessionManager) (child_profile : String)
    (now : ℤ) (h : dictGet m.active_sessions child_profile = none) :
    end_session m child_profile now = (none, m) := by
  unfold end_session
  rw [h]

theorem c7_end_session_no_active_witness :
    dictGet (SessionManager.mk [] [] []).active_sessions "kid" = none ∧
    end_session ⟨[], [], []⟩ "kid" 5 = (none, ⟨[], [], []⟩) :=
  ⟨rfl, c7_end_session_no_active ⟨[], [], []⟩ "kid" 5 rfl⟩

/-- C8: `get_live_session` returns, for a profile with an active session, the
session together with `current_duration_seconds` recomputed as `now −
time_start` (whatever duration value the record stored), and returns the
not-found value `none` for a profile with no active session. -/
theorem c8_get_live_session_recomputes (m : SessionManager)
    (child_profile : String) (now : ℤ) :
    (∀ s t0, dictGet m.active_sessions child_profile = some s →
      s.time_start = some t0 →
      get_live_session m child_profile now = some ⟨s, now - t0⟩) ∧
    (dictGet m.active_sessions child_profile = none →
      get_live_session m child_profile now = none) := by
  constructor
  · intro s t0 hs ht
    unfold get_live_session
    rw [hs]
    simp [ht]
  · intro h
    unfold get_live_session
    rw [h]

theorem c8_get_live_session_recomputes_witness :
    get_live_session ⟨[("kid", SessionRecord.startNew "kid" 2)], [], []⟩ "kid" 10 =
      some ⟨SessionRecord.startNew "kid" 2, 10 - 2⟩ ∧
    get_live_session ⟨[], [], []⟩ "kid" 10 = none :=
  ⟨(c8_get_live_session_recomputes ⟨[("kid", SessionRecord.startNew "kid" 2)], [], []⟩
      "kid" 10).1 (SessionRecord.startNew "kid" 2) 2 rfl rfl,
    (c8_get_live_session_recomputes ⟨[], [], []⟩ "kid" 10).2 rfl⟩

/-- C9: supervisor misuse is an idempotent no-op — `start` on an
already-monitoring service returns the state unchanged, and `stop` on a
non-monitoring service returns the state unchanged (both functions are
total, so neither misuse can raise). -/
theorem c9_supervisor_idempotent (st : ProcessMonitorService) (cfg : Config)
    (procs : List ProcId) :
    (st.is_monitoring = true → st.start cfg procs = st) ∧
    (st.is_monitoring = false → st.stop = st) := by
  constructor
  · intro h
    unfold ProcessMonitorService.start
    rw [h]
    rfl
  · intro h
    unfold ProcessMonitorService.stop
    rw [h]
    rfl

theorem c9_supervisor_idempotent_witness :
    ProcessMonitorService.start ⟨true, true, ∅, ⟨false⟩⟩ ⟨true⟩ [⟨7, "Roblox"⟩] =
      ⟨true, true, ∅, ⟨false⟩⟩ ∧
    ProcessMonitorService.stop ProcessMonitorService.init = ProcessMonitorService.init :=
  ⟨(c9_supervisor_idempotent ⟨true, true, ∅, ⟨false⟩⟩ ⟨true⟩ [⟨7, "Roblox"⟩]).1 rfl,
    (c9_supervisor_idempotent ProcessMonitorService.init ⟨true⟩ []).2 rfl⟩

theorem charsMatchAt_iff_append (n h : List Char) :
    charsMatchAt n h = true ↔ ∃ rest, h = n ++ rest := by
  induction n generalizing h with
  | nil =>
      simp [charsMatchAt]
  | cons a n ih =>
      cases h with
      | nil => simp [charsMatchAt]
      | cons b t =>
          show (a == b && charsMatchAt n t) = true ↔ _
          rw [Bool.and_eq_true, beq_iff_eq, ih]
          constructor
          · rintro ⟨rfl, rest, rfl⟩
            exact ⟨rest, rfl⟩
          · rintro ⟨rest, heq⟩
            injection heq with h1 h2
            exact ⟨h1.symm, rest, h2⟩

theorem charsContain_iff_parts (n h : List Char) :
    charsContain n h = true ↔ ∃ pre post, h = pre ++ n ++ post := by
  induction h with
  | nil =>
      show charsMatchAt n [] = true ↔ _
      rw [charsMatchAt_iff_append]
      constructor
      · rintro ⟨rest, heq⟩
        exact ⟨[], rest, heq⟩
      · rintro ⟨pre, post, heq⟩
        refine ⟨post, ?_⟩
        rcases List.append_eq_nil.mp heq.symm with ⟨h1, -⟩
        rcases List.append_eq_nil.mp h1 with ⟨rfl, rfl⟩
        simpa using heq
  | cons b t ih =>
      show (charsMatchAt n (b :: t) || charsContain n t) = true ↔ _
      rw [Bool.or_eq_true, charsMatchAt_iff_append, ih]
      constructor
      · rintro (⟨rest, heq⟩ | ⟨pre, post, rfl⟩)
        · exact ⟨[], rest, heq⟩
        · exact ⟨b :: pre, post, rfl⟩
      · rintro ⟨pre, post, heq⟩
        cases pre with
        | nil =>
            left
            exact ⟨post, by simpa using heq⟩
        | cons c pre =>
            injection heq with h1 h2
            right
            exact ⟨pre, post, h2⟩

/-- C10: `_is_roblox_process` is substring-based, not an exact-name match —
a name is classified as Roblox exactly when it is one of the four fixed names
in `ROBLOX_PROCESSES` or its lowercasing contains `"roblox"` as a contiguous
substring somewhere. -/
theorem c10_is_roblox_process_substring (name : String) :
    is_roblox_process name = true ↔
      (name = "RobloxPlayerBeta.exe" ∨ name = "RobloxStudioBeta.exe" ∨
        name = "RobloxPlayerLauncher.exe" ∨ name = "Roblox" ∨
        ∃ pre post, (pyLower name).data = pre ++ "roblox".data ++ post) := by
  unfold is_roblox_process strContainsSub ROBLOX_PROCESSES
  rw [Bool.or_eq_true, charsContain_iff_parts]
  simp [or_assoc]

theorem PEvent.started_injective : Function.Injective PEvent.started := by
  intro a b h
  injection h

theorem PEvent.stopped_injective : Function.Injective PEvent.stopped := by
  intro a b h
  injection h

theorem count_started_map_stopped (p : ProcId) (s : Multiset ProcId) :
    Multiset.count (PEvent.started p) (s.map PEvent.stopped) = 0 := by
  rw [Multiset.count_eq_zero]
  intro hmem
  rcases Multiset.mem_map.mp hmem with ⟨q, -, hq⟩
  cases hq

theorem count_stopped_map_started (p : ProcId) (s : Multiset ProcId) :
    Multiset.count (PEvent.stopped p) (s.map PEvent.started) = 0 := by
  rw [Multiset.count_eq_zero]
  intro hmem
  rcases Multiset.mem_map.mp hmem with ⟨q, -, hq⟩
  cases hq

theorem count_finset_val (p : ProcId) (s : Finset ProcId) :
    Multiset.count p s.val = if p ∈ s then 1 else 0 := by
  rw [Multiset.count_eq_of_nodup s.nodup]
  simp

/-- C1: one iteration of the monitor loop over the old known set `S1` and a
fresh OS listing with snapshot `S2` emits exactly one `started` event per
member of `S2 − S1` and exactly one `stopped` event per member of `S1 − S2`
(and none for any other process identity), and leaves `known_processes`
equal to `S2`. -/
theorem c1_monitor_loop_iter_diff (st : ProcessMonitorService)
    (procs : List ProcId) (p : ProcId) :
    Multiset.count (PEvent.started p) (monitor_loop_iter st procs).1 =
      (if p ∈ snapshotFrom procs \ st.known_processes then 1 else 0) ∧
    Multiset.count (PEvent.stopped p) (monitor_loop_iter st procs).1 =
      (if p ∈ st.known_processes \ snapshotFrom procs then 1 else 0) ∧
    (monitor_loop_iter st procs).2.known_processes = snapshotFrom procs := by
  unfold monitor_loop_iter
  refine ⟨?_, ?_, rfl⟩
  · rw [Multiset.count_add,
      Multiset.count_map_eq_count' PEvent.started _ PEvent.started_injective,
      count_started_map_stopped, count_finset_val]
    simp
  · rw [Multiset.count_add,
      Multiset.count_map_eq_count' PEvent.stopped _ PEvent.stopped_injective,
      count_stopped_map_started, count_finset_val]
    simp

theorem dictGet_dictSet_self {α : Type} (l : List (String × α)) (k : String) (v : α) :
    dictGet (dictSet l k v) k = some v := by
  induction l with
  | nil => simp [dictSet, dictGet]
  | cons e t ih =>
      by_cases h : e.1 = k
      · simp [dictSet, dictGet, h]
      · simp [dictSet, dictGet, h, ih]

theorem dictGet_eq_none_iff {α : Type} (l : List (String × α)) (k : String) :
    dictGet l k = none ↔ k ∉ l.map Prod.fst := by
  induction l with
  | nil => simp [dictGet]
  | cons e t ih =>
      by_cases h : e.1 = k
      · simp [dictGet, h]
      · simp [dictGet, h, ih, Ne.symm h]

theorem dictDel_keys_sublist {α : Type} (l : List (String × α)) (k : String) :
    ((dictDel l k).map Prod.fst).Sublist (l.map Prod.fst) := by
  induction l with
  | nil => simp [dictDel]
  | cons e t ih =>
      by_cases h : e.1 = k
      · have hd : dictDel (e :: t) k = t := by simp [dictDel, h]
        rw [hd, List.map_cons]
        exact (List.Sublist.refl _).cons e.1
      · simp only [dictDel, if_neg h, List.map_cons]
        exact ih.cons₂ e.1

theorem keysNodup_dictDel {α : Type} (l : List (String × α)) (k : String)
    (h : keysNodup l) : keysNodup (dictDel l k) :=
  List.Nodup.sublist (dictDel_keys_sublist l k) h

theorem dictGet_dictDel_self {α : Type} (l : List (String × α)) (k : String)
    (h : keysNodup l) : dictGet (dictDel l k) k = none := by
  induction l with
  | nil => simp [dictDel, dictGet]
  | cons e t ih =>
      rcases List.nodup_cons.mp h with ⟨hk, ht⟩
      by_cases he : e.1 = k
      · rw [dictGet_eq_none_iff]
        simp only [dictDel, if_pos he]
        rw [he] at hk
        exact hk
      · simp only [dictDel, if_neg he, dictGet, if_neg he]
        exact ih ht

theorem dictSet_of_absent {α : Type} (l : List (String × α)) (k : String) (v : α)
    (h : dictGet l k = none) : dictSet l k v = l ++ [(k, v)] := by
  induction l with
  | nil => simp [dictSet]
  | cons e t ih =>
      by_cases he : e.1 = k
      · rw [dictGet, if_pos he] at h
        cases h
      · rw [dictGet, if_neg he] at h
        simp [dictSet, if_neg he, ih h]

theorem filter_key_nil_of_absent {α : Type} (l : List (String × α)) (k : String)
    (h : k ∉ l.map Prod.fst) : l.filter (fun e => e.1 == k) = [] := by
  induction l with
  | nil => rfl
  | cons e t ih =>
      simp only [List.map_cons, List.mem_cons] at h
      push_neg at h
      have hne : (e.1 == k) = false := by
        simp only [beq_eq_false_iff_ne]
        exact fun hh => h.1 hh.symm
      simp [List.filter_cons, hne, ih h.2]

theorem endAt_not_active (s : SessionRecord) (now : ℤ) :
    (s.endAt now).is_active = false := by
  unfold SessionRecord.endAt
  by_cases h : s.is_active <;> simp [h]

/-- C5: when `start_session` runs for a profile that already has an active
session, the prior session is closed first — appended to the history in a
non-active state — and afterwards the active map holds the freshly opened
session as the single entry for that profile, so two concurrently-active
sessions for one profile never coexist. -/
theorem c5_start_session_single_active (m : SessionManager) (child_profile : String)
    (now : ℤ) (old : SessionRecord)
    (hk : keysNodup m.active_sessions)
    (hold : dictGet m.active_sessions child_profile = some old) :
    (start_session m child_profile now).2.session_history =
      m.session_history ++ [old.endAt now] ∧
    (old.endAt now).is_active = false ∧
    dictGet (start_session m child_profile now).2.active_sessions child_profile =
      some (start_session m child_profile now).1 ∧
    (start_session m child_profile now).1.is_active = true ∧
    keysNodup (start_session m child_profile now).2.active_sessions ∧
    ((start_session m child_profile now).2.active_sessions.filter
        (fun e => e.1 == child_profile)).length = 1 := by
  have hdel : dictGet (dictDel m.active_sessions child_profile) child_profile = none :=
    dictGet_dictDel_self m.active_sessions child_profile hk
  have habs : child_profile ∉ (dictDel m.active_sessions child_profile).map Prod.fst :=
    (dictGet_eq_none_iff _ _).mp hdel
  have hset : dictSet (dictDel m.active_sessions child_profile) child_profile
      (SessionRecord.startNew child_profile now) =
      dictDel m.active_sessions child_profile ++
        [(child_profile, SessionRecord.startNew child_profile now)] :=
    dictSet_of_absent _ _ _ hdel
  have hm' : start_session m child_profile now =
      (SessionRecord.startNew child_profile now,
        { active_sessions := dictSet (dictDel m.active_sessions child_profile)
            child_profile (SessionRecord.startNew child_profile now)
          session_history := m.session_history ++ [old.endAt now]
          time_limits := m.time_limits }) := by
    unfold start_session end_session
    rw [hold]
    simp
  rw [hm']
  refine ⟨rfl, endAt_not_active old now, dictGet_dictSet_self _ _ _, rfl, ?_, ?_⟩
  · rw [hset]
    unfold keysNodup
    rw [List.map_append, List.nodup_append]
    refine ⟨keysNodup_dictDel m.active_sessions child_profile hk, by simp, ?_⟩
    intro a ha hb
    simp only [List.map_cons, List.map_nil, List.mem_singleton] at hb
    rw [hb] at ha
    exact habs ha
  · rw [hset, List.filter_append, filter_key_nil_of_absent _ _ habs]
    simp

theorem c5_start_session_single_active_witness :
    (keysNodup (SessionManager.mk [("kid", SessionRecord.startNew "kid" 0)] [] []).active_sessions ∧
      dictGet (SessionManager.mk [("kid", SessionRecord.startNew "kid" 0)] [] []).active_sessions
        "kid" = some (SessionRecord.startNew "kid" 0)) ∧
    ((start_session ⟨[("kid", SessionRecord.startNew "kid" 0)], [], []⟩ "kid" 50).2.session_history =
        [] ++ [(SessionRecord.startNew "kid" 0).endAt 50] ∧
      ((SessionRecord.startNew "kid" 0).endAt 50).is_active = false ∧
      dictGet (start_session ⟨[("kid", SessionRecord.startNew "kid" 0)], [], []⟩ "kid" 50).2.active_sessions
          "kid" =
        some (start_session ⟨[("kid", SessionRecord.startNew "kid" 0)], [], []⟩ "kid" 50).1 ∧
      (start_session ⟨[("kid", SessionRecord.startNew "kid" 0)], [], []⟩ "kid" 50).1.is_active = true ∧
      keysNodup (start_session ⟨[("kid", SessionRecord.startNew "kid" 0)], [], []⟩ "kid" 50).2.active_sessions ∧
      ((start_session ⟨[("kid", SessionRecord.startNew "kid" 0)], [], []⟩ "kid" 50).2.active_sessions.filter
          (fun e => e.1 == "kid")).length = 1) :=
  ⟨⟨by decide, rfl⟩,
    c5_start_session_single_active ⟨[("kid", SessionRecord.startNew "kid" 0)], [], []⟩
      "kid" 50 (SessionRecord.startNew "kid" 0) (by decide) rfl⟩

theorem check_time_limits_go_eq (limits : List (String × Int)) (now : ℤ)
    (entries : List (String × SessionRecord)) (acc : List String)
    (hall : ∀ e ∈ entries, e.2.time_start ≠ none) :
    check_time_limits_go limits now entries acc =
      some (acc ++ flaggedProfiles limits now entries) := by
  induction entries generalizing acc with
  | nil => simp [check_time_limits_go, flaggedProfiles]
  | cons e rest ih =>
      obtain ⟨cp, s⟩ := e
      have hrest : ∀ e ∈ rest, e.2.time_start ≠ none :=
        fun e he => hall e (List.mem_cons_of_mem _ he)
      cases hl : dictGet limits cp with
      | none =>
          simp only [check_time_limits_go, hl, flaggedProfiles, List.filterMap_cons,
            flagOf]
          rw [ih _ hrest]
          rfl
      | some lim =>
          cases ht : s.time_start with
          | none => exact absurd ht (hall (cp, s) (List.mem_cons_self _ _))
          | some t0 =>
              simp only [check_time_limits_go, hl, ht, flaggedProfiles,
                List.filterMap_cons, flagOf]
              by_cases hcond : now - t0 > lim * 60
              · rw [if_pos hcond, if_pos hcond, ih _ hrest]
                simp [flaggedProfiles]
              · rw [if_neg hcond, if_neg hcond, ih _ hrest]
                rfl

theorem dictGet_mem {α : Type} (l : List (String × α)) (k : String) (v : α)
    (h : dictGet l k = some v) : (k, v) ∈ l := by
  induction l with
  | nil => cases h
  | cons e t ih =>
      obtain ⟨k', v'⟩ := e
      simp only [dictGet] at h
      by_cases he : k' = k
      · rw [if_pos he] at h
        injection h with hv
        subst he
        subst hv
        exact List.mem_cons_self _ _
      · rw [if_neg he] at h
        exact List.mem_cons_of_mem _ (ih h)

theorem mem_keysNodup_unique {α : Type} (l : List (String × α)) (k : String) (v : α)
    (hk : keysNodup l) (hget : dictGet l k = some v) :
    ∀ e ∈ l, e.1 = k → e = (k, v) := by
  induction l with
  | nil =>
      intro e he
      cases he
  | cons a t ih =>
      obtain ⟨k', v'⟩ := a
      simp only [keysNodup, List.map_cons, List.nodup_cons] at hk
      obtain ⟨hnot, ht⟩ := hk
      intro e he hek
      simp only [dictGet] at hget
      rcases List.mem_cons.mp he with rfl | het
      · have hek' : k' = k := hek
        rw [if_pos hek'] at hget
        injection hget with hv
        rw [hek', hv]
      · by_cases he' : k' = k
        · exfalso
          apply hnot
          rw [he']
          exact List.mem_map.mpr ⟨e, het, hek⟩
        · rw [if_neg he'] at hget
          exact ih ht hget e het hek

theorem flagOf_eq_some {limits : List (String × Int)} {now : ℤ}
    {e : String × SessionRecord} {x : String}
    (h : flagOf limits now e = some x) :
    e.1 = x ∧ ∃ lim t0, dictGet limits e.1 = some lim ∧
      e.2.time_start = some t0 ∧ now - t0 > lim * 60 := by
  unfold flagOf at h
  cases hgl : dictGet limits e.1 <;> rw [hgl] at h <;>
    cases ht : e.2.time_start <;> rw [ht] at h
  · cases h
  · cases h
  · cases h
  · rename_i lim t0
    have h' : (if now - t0 > lim * 60 then some e.1 else none) = some x := h
    by_cases hcond : now - t0 > lim * 60
    · rw [if_pos hcond] at h'
      injection h' with hx
      exact ⟨hx, lim, t0, rfl, rfl, hcond⟩
    · rw [if_neg hcond] at h'
      cases h'

theorem mem_flaggedProfiles_iff (m : SessionManager) (child_profile : String)
    (now t0 : ℤ) (s : SessionRecord) (lim : Int)
    (hk : keysNodup m.active_sessions)
    (hs : dictGet m.active_sessions child_profile = some s)
    (ht0 : s.time_start = some t0)
    (hl : dictGet m.time_limits child_profile = some lim) :
    child_profile ∈ flaggedProfiles m.time_limits now m.active_sessions ↔
      now - t0 > lim * 60 := by
  unfold flaggedProfiles
  rw [List.mem_filterMap]
  constructor
  · rintro ⟨e, he, hfe⟩
    obtain ⟨hek, lim', t0', hgl', ht0', hcond'⟩ := flagOf_eq_some hfe
    have hes : e = (child_profile, s) :=
      mem_keysNodup_unique m.active_sessions child_profile s hk hs e he hek
    rw [hes] at hgl' ht0'
    simp only at hgl' ht0'
    rw [hgl'] at hl
    injection hl with hlim
    rw [ht0'] at ht0
    injection ht0 with htt
    rw [← hlim, ← htt]
    exact hcond'
  · intro hcond
    refine ⟨(child_profile, s), dictGet_mem m.active_sessions child_profile s hs, ?_⟩
    unfold flagOf
    simp only [ht0, hl]
    rw [if_pos hcond]

/-- C6: for a profile with a configured time limit and an active session
started at `t0`, `check_time_limits` completes and flags the profile exactly
when `now − t0` strictly exceeds `limit_minutes * 60`; a session exactly at
the limit is not flagged. -/
theorem c6_check_time_limits_strict (m : SessionManager) (child_profile : String)
    (now t0 : ℤ) (s : SessionRecord) (limit_minutes : Int)
    (hk : keysNodup m.active_sessions)
    (hall : ∀ e ∈ m.active_sessions, e.2.time_start ≠ none)
    (hs : dictGet m.active_sessions child_profile = some s)
    (ht0 : s.time_start = some t0)
    (hl : dictGet m.time_limits child_profile = some limit_minutes) :
    check_time_limits m now =
      some (flaggedProfiles m.time_limits now m.active_sessions) ∧
    (child_profile ∈ flaggedProfiles m.time_limits now m.active_sessions ↔
      now - t0 > limit_minutes * 60) := by
  constructor
  · unfold check_time_limits
    rw [check_time_limits_go_eq _ _ _ _ hall]
    rfl
  · exact mem_flaggedProfiles_iff m child_profile now t0 s limit_minutes hk hs ht0 hl

theorem c6_check_time_limits_strict_witness :
    (keysNodup ([("kid", SessionRecord.startNew "kid" 0)]) ∧
      (∀ e ∈ [("kid", SessionRecord.startNew "kid" 0)],
        (e : String × SessionRecord).2.time_start ≠ none) ∧
      dictGet [("kid", SessionRecord.startNew "kid" 0)] "kid" =
        some (SessionRecord.startNew "kid" 0) ∧
      (SessionRecord.startNew "kid" 0).time_start = some 0 ∧
      dictGet [("kid", (30 : Int))] "kid" = some 30) ∧
    (check_time_limits ⟨[("kid", SessionRecord.startNew "kid" 0)], [], [("kid", 30)]⟩ 1801 =
      some (flaggedProfiles [("kid", 30)] 1801 [("kid", SessionRecord.startNew "kid" 0)]) ∧
    ("kid" ∈ flaggedProfiles [("kid", 30)] 1801 [("kid", SessionRecord.startNew "kid" 0)] ↔
      (1801 : ℤ) - 0 > 30 * 60)) :=
  ⟨⟨by decide, by decide, rfl, rfl, rfl⟩,
    c6_check_time_limits_strict
      ⟨[("kid", SessionRecord.startNew "kid" 0)], [], [("kid", 30)]⟩ "kid" 1801 0
      (SessionRecord.startNew "kid" 0) 30 (by decide) (by decide) rfl rfl rfl⟩

theorem with_ws_self (st : DesktopClientService) (ws : WSServer)
    (hws : st.websocket_server = some ws) : with_ws st ws = st := by
  unfold with_ws
  rw [← hws]

theorem push_sent_nil (ws : WSServer) : push_sent ws [] = ws := by
  unfold push_sent
  rw [List.append_nil]

theorem with_ws_with_ws (st : DesktopClientService) (w1 w2 : WSServer) :
    with_ws (with_ws st w1) w2 = with_ws st w2 := rfl

theorem with_ws_event_queue (st : DesktopClientService) (w : WSServer) :
    (with_ws st w).event_queue = st.event_queue := rfl

theorem push_sent_push_sent (w : WSServer) (a b : List (String × Msg)) :
    push_sent (push_sent w a) b = push_sent w (a ++ b) := by
  unfold push_sent
  simp [List.append_assoc]

theorem send_live (st : DesktopClientService) (ws : WSServer) (ty : String)
    (data : Msg) (now : Nat)
    (hws : st.websocket_server = some ws)
    (hc : ws.has_connected_clients = true)
    (hr : ws.send_raises = false) :
    send_via_available_channel st ty data now =
      (true, with_ws st (push_sent ws [(ty, data)])) := by
  unfold send_via_available_channel with_ws push_sent
  rw [hws]
  simp [hc, hr]

theorem send_each_live (ty : String) (now : Nat) (msgs : List Msg) :
    ∀ (st : DesktopClientService) (ws : WSServer),
      st.websocket_server = some ws →
      ws.has_connected_clients = true →
      ws.send_raises = false →
      send_each st ty msgs now =
        with_ws st (push_sent ws (msgs.map (fun m => (ty, m)))) := by
  induction msgs with
  | nil =>
      intro st ws hws hc hr
      simp only [send_each, List.foldl_nil, List.map_nil, push_sent_nil,
        with_ws_self st ws hws]
  | cons m ms ih =>
      intro st ws hws hc hr
      unfold send_each
      rw [List.foldl_cons]
      have h2 : (send_via_available_channel st ty m now).2 =
          with_ws st (push_sent ws [(ty, m)]) := by
        rw [send_live st ws ty m now hws hc hr]
      rw [h2]
      have h3 := ih (with_ws st (push_sent ws [(ty, m)]))
        (push_sent ws [(ty, m)]) rfl hc hr
      unfold send_each at h3
      rw [h3]
      unfold with_ws push_sent
      simp [List.append_assoc]

theorem process_event_queue_loop_live (now : Nat) :
    ∀ (fuel i : Nat) (st : DesktopClientService) (ws : WSServer),
      st.websocket_server = some ws →
      ws.has_connected_clients = true →
      ws.send_raises = false →
      st.event_queue.length - i < fuel →
      process_event_queue_loop fuel st i now =
        some (with_ws st (push_sent ws
          ((st.event_queue.drop i).map (fun m => ("event", m))))) := by
  intro fuel
  induction fuel with
  | zero =>
      intro i st ws _ _ _ hfuel
      omega
  | succ fuel ih =>
      intro i st ws hws hc hr hfuel
      unfold process_event_queue_loop
      by_cases h : i < st.event_queue.length
      · rw [dif_pos h]
        show process_event_queue_loop fuel
            (send_via_available_channel st "event" (st.event_queue.get ⟨i, h⟩) now).2
            (i + 1) now =
          some (with_ws st (push_sent ws
            ((st.event_queue.drop i).map (fun m => ("event", m)))))
        have h2 : (send_via_available_channel st "event"
              (st.event_queue.get ⟨i, h⟩) now).2 =
            with_ws st (push_sent ws [("event", st.event_queue.get ⟨i, h⟩)]) := by
          rw [send_live st ws "event" _ now hws hc hr]
        rw [h2]
        have hlen : (with_ws st
              (push_sent ws [("event", st.event_queue.get ⟨i, h⟩)])).event_queue.length
            - (i + 1) < fuel := by
          show st.event_queue.length - (i + 1) < fuel
          omega
        rw [ih (i + 1) _ (push_sent ws [("event", st.event_queue.get ⟨i, h⟩)])
          rfl hc hr hlen]
        have hdrop : st.event_queue.drop i =
            st.event_queue.get ⟨i, h⟩ :: st.event_queue.drop (i + 1) := by
          rw [List.drop_eq_getElem_cons h]
          simp [List.get_eq_getElem]
        rw [with_ws_with_ws, with_ws_event_queue, push_sent_push_sent, hdrop]
        simp only [List.map_cons, List.singleton_append]
      · rw [dif_neg h]
        have hdrop : st.event_queue.drop i = [] :=
          List.drop_eq_nil_of_le (by omega)
        rw [hdrop]
        simp only [List.map_nil, push_sent_nil, with_ws_self st ws hws]

theorem process_queued_data_live (st : DesktopClientService) (ws : WSServer)
    (now fuel : Nat)
    (hws : st.websocket_server = some ws)
    (hc : ws.has_connected_clients = true)
    (hr : ws.send_raises = false)
    (hfuel : st.event_queue.length < fuel) :
    process_queued_data st now fuel =
      some (clear_queues (with_ws st (push_sent ws
        (st.session_data_queue.map (fun m => ("session_data", m))
          ++ st.notification_queue.map (fun m => ("notification", m))
          ++ st.event_queue.map (fun m => ("event", m)))))) := by
  simp only [process_queued_data]
  rw [send_each_live "session_data" now st.session_data_queue st ws hws hc hr]
  rw [send_each_live "notification" now _
    (with_ws st (push_sent ws
      (st.session_data_queue.map (fun m => ("session_data", m)))))
    (push_sent ws (st.session_data_queue.map (fun m => ("session_data", m))))
    rfl hc hr]
  rw [process_event_queue_loop_live now fuel 0 _
    (push_sent (push_sent ws
        (st.session_data_queue.map (fun m => ("session_data", m))))
      ((with_ws st (push_sent ws
          (st.session_data_queue.map (fun m => ("session_data", m))))).notification_queue.map
        (fun m => ("notification", m))))
    rfl hc hr
    (by show st.event_queue.length - 0 < fuel; omega)]
  unfold clear_queues with_ws push_sent
  simp [List.append_assoc]

/-- C4: when a consumer attaches after a backlog has accumulated and the
fresh transport is live (connected clients, non-raising push), the connect
handler flushes the whole backlog through the live transport in the original
enqueue order — the queued event envelopes go out after the (always-empty in
this codebase) session-data and notification backlogs, each queue in its own
FIFO order — and, modelling the scheduled flush as completing before any
further operation, a subsequent drain returns the empty list because every
queue was emptied via the live path. -/
theorem c4_attach_flushes_backlog (st : DesktopClientService) (ws : WSServer)
    (now fuel : Nat)
    (hws : st.websocket_server = some ws)
    (hc : ws.has_connected_clients = true)
    (hr : ws.send_raises = false)
    (hfuel : st.event_queue.length < fuel) :
    ∃ st', set_client_connected st true now fuel = some st' ∧
      st'.desktop_client_connected = true ∧
      st'.event_queue = [] ∧
      st'.session_data_queue = [] ∧
      st'.notification_queue = [] ∧
      (get_pending_events st').1 = [] ∧
      ws_sent st' = ws.sent
        ++ st.session_data_queue.map (fun m => ("session_data", m))
        ++ st.notification_queue.map (fun m => ("notification", m))
        ++ st.event_queue.map (fun m => ("event", m)) := by
  unfold set_client_connected
  rw [if_pos rfl]
  rw [process_queued_data_live { st with desktop_client_connected := true } ws
    now fuel hws hc hr hfuel]
  refine ⟨_, rfl, rfl, rfl, rfl, rfl, rfl, ?_⟩
  unfold ws_sent clear_queues with_ws push_sent
  simp [List.append_assoc]

theorem c4_attach_flushes_backlog_witness :
    ((DesktopClientService.mk false [Msg.payload "s1"] [Msg.payload "n1"]
        [Msg.envelope "roblox_event" (Msg.payload "e1") 3,
          Msg.envelope "notification" (Msg.payload "e2") 4]
        (some ⟨1, false, []⟩)).websocket_server = some ⟨1, false, []⟩ ∧
      WSServer.has_connected_clients ⟨1, false, []⟩ = true ∧
      WSServer.send_raises ⟨1, false, []⟩ = false ∧
      (DesktopClientService.mk false [Msg.payload "s1"] [Msg.payload "n1"]
        [Msg.envelope "roblox_event" (Msg.payload "e1") 3,
          Msg.envelope "notification" (Msg.payload "e2") 4]
        (some ⟨1, false, []⟩)).event_queue.length < 3) ∧
    (∃ st', set_client_connected
        (DesktopClientService.mk false [Msg.payload "s1"] [Msg.payload "n1"]
          [Msg.envelope "roblox_event" (Msg.payload "e1") 3,
            Msg.envelope "notification" (Msg.payload "e2") 4]
          (some ⟨1, false, []⟩)) true 9 3 = some st' ∧
      st'.desktop_client_connected = true ∧
      st'.event_queue = [] ∧
      st'.session_data_queue = [] ∧
      st'.notification_queue = [] ∧
      (get_pending_events st').1 = [] ∧
      ws_sent st' = WSServer.sent ⟨1, false, []⟩
        ++ [Msg.payload "s1"].map (fun m => ("session_data", m))
        ++ [Msg.payload "n1"].map (fun m => ("notification", m))
        ++ [Msg.envelope "roblox_event" (Msg.payload "e1") 3,
            Msg.envelope "notification" (Msg.payload "e2") 4].map
          (fun m => ("event", m))) :=
  ⟨⟨rfl, rfl, rfl, by decide⟩,
    c4_attach_flushes_backlog
      (DesktopClientService.mk false [Msg.payload "s1"] [Msg.payload "n1"]
        [Msg.envelope "roblox_event" (Msg.payload "e1") 3,
          Msg.envelope "notification" (Msg.payload "e2") 4]
        (some ⟨1, false, []⟩))
      ⟨1, false, []⟩ 9 3 rfl rfl rfl (by decide)⟩

end RobloxLog
